import Mathlib

/-!
Shallow embedding of the llm-cost-optimizer routing core
(src/models.py, src/router.py) and of the utilization-rate loop of
src/analytics.py, together with proofs of the specification claims.

Python floats are modelled by the rationals; all the float constants of
the source (0.5, 1.0, 1.5, 2.0, 3.5) and the score arithmetic on them are
exact in binary floating point, so the rational model is exact on the
classifier.  Python round(x, n) (banker rounding, round half to even) is
modelled by pyRound.  Text is modelled as the list of its characters with
ASCII semantics for lower-casing, whitespace and digits.
-/

namespace LLMCostOpt

/-- Quality tier for LLM models (models.py, class QualityTier). -/
inductive QualityTier
  | premium
  | standard
  | economy
deriving DecidableEq

/-- Task complexity classification (models.py, class Complexity). -/
inductive Complexity
  | simple
  | moderate
  | complex
deriving DecidableEq

/-- StrEnum value of a quality tier, as used in reason strings and dict keys. -/
def QualityTier.value : QualityTier → String
  | QualityTier.premium => "premium"
  | QualityTier.standard => "standard"
  | QualityTier.economy => "economy"

/-- StrEnum value of a complexity level. -/
def Complexity.value : Complexity → String
  | Complexity.simple => "simple"
  | Complexity.moderate => "moderate"
  | Complexity.complex => "complex"

/-- Round a rational to the nearest integer, ties to even: the rounding of
Python round() on an exact value. -/
def roundHalfEven (x : ℚ) : ℤ :=
  if x - ⌊x⌋ < 1 / 2 then ⌊x⌋
  else if 1 / 2 < x - ⌊x⌋ then ⌊x⌋ + 1
  else if ⌊x⌋ % 2 = 0 then ⌊x⌋ else ⌊x⌋ + 1

/-- Python round(x, ndigits) on an exact rational value. -/
def pyRound (x : ℚ) (ndigits : ℕ) : ℚ :=
  (roundHalfEven (x * 10 ^ ndigits) : ℚ) / 10 ^ ndigits

/-- Configuration of one LLM model (models.py, class ModelConfig). -/
structure ModelConfig where
  name : String
  provider : String
  model_id : String
  cost_per_1k_input : ℚ
  cost_per_1k_output : ℚ
  max_tokens : ℕ
  quality_tier : QualityTier
deriving DecidableEq

/-- ModelConfig.estimate_cost: cost for the given token counts, rounded to
6 decimal places. -/
def ModelConfig.estimate_cost (m : ModelConfig) (input_tokens output_tokens : ℤ) : ℚ :=
  let input_cost := ((input_tokens : ℚ) / 1000) * m.cost_per_1k_input
  let output_cost := ((output_tokens : ℚ) / 1000) * m.cost_per_1k_output
  pyRound (input_cost + output_cost) 6

/-- Whitespace characters of Python str.strip, str.split and of the regex
class backslash-s (ASCII range). -/
def isPySpace (c : Char) : Bool :=
  c = ' ' || c = '\t' || c = '\n' || c = '\r' || c = '\x0b' || c = '\x0c'

/-- Python str.lower (ASCII semantics). -/
def pyLower (cs : List Char) : List Char :=
  cs.map Char.toLower

/-- Python str.strip: remove leading and trailing whitespace. -/
def pyStrip (cs : List Char) : List Char :=
  ((cs.dropWhile isPySpace).reverse.dropWhile isPySpace).reverse

/-- Helper for pyWordCount: count maximal nonspace runs, tracking whether
the previous character was inside a word. -/
def countWordsFrom : List Char → Bool → ℕ
  | [], _ => 0
  | c :: t, inWord =>
    if isPySpace c then countWordsFrom t false
    else if inWord then countWordsFrom t true
    else 1 + countWordsFrom t true

/-- Python len(s.split()): the number of whitespace-separated words. -/
def pyWordCount (cs : List Char) : ℕ :=
  countWordsFrom cs false

/-- Python substring test: needle in hay. -/
def pyContains (hay needle : List Char) : Bool :=
  decide (List.IsInfix needle hay)

/-- Body of the numbered-item regex after the start-or-newline anchor:
whitespace star, one or more digits, a dot or closing parenthesis, one
whitespace character.  Returns the rest of the text after the match.
The character classes involved are pairwise disjoint, so greedy matching
without backtracking is exact. -/
def matchNumberedItem (cs : List Char) : Option (List Char) :=
  let cs1 := cs.dropWhile isPySpace
  let cs2 := cs1.dropWhile Char.isDigit
  if cs1.length = cs2.length then none
  else
    match cs2 with
    | c :: d :: rest => if (c = '.' || c = ')') && isPySpace d then some rest else none
    | _ => none

/-- Body of the bullet-item regex after the start-or-newline anchor:
whitespace star, a dash or star, one whitespace character. -/
def matchBulletItem (cs : List Char) : Option (List Char) :=
  let cs1 := cs.dropWhile isPySpace
  match cs1 with
  | c :: d :: rest => if (c = '-' || c = '*') && isPySpace d then some rest else none
  | _ => none

/-- Count the nonoverlapping matches of an anchored item regex, the way
re.findall scans: at the start of the text the anchor is zero width, at any
later position it must consume a newline (which the whitespace star of the
body also accepts, so passing the whole suffix to the body is equivalent).
On failure the scan advances one character.  Every recursive call consumes
at least one character, so fuel equal to the length of the text plus one is
never exhausted. -/
def scanItems (matchItem : List Char → Option (List Char)) : ℕ → Bool → List Char → ℕ
  | 0, _, _ => 0
  | _ + 1, _, [] => 0
  | fuel + 1, atStart, c :: t =>
    if atStart || c = '\n' then
      match matchItem (c :: t) with
      | some rest => 1 + scanItems matchItem fuel false rest
      | none => scanItems matchItem fuel false t
    else scanItems matchItem fuel false t

/-- Number of matches of the numbered-list-line regex in the text. -/
def countNumberedItems (cs : List Char) : ℕ :=
  scanItems matchNumberedItem (cs.length + 1) true cs

/-- Number of matches of the bullet-line regex in the text. -/
def countBulletItems (cs : List Char) : ℕ :=
  scanItems matchBulletItem (cs.length + 1) true cs

/-- The fixed, case-sensitive code markers of classify_complexity. -/
def codeIndicators : List String :=
  ["```", "def ", "class ", "function ", "import ", "SELECT ", "CREATE "]

/-- Loaded router state (SmartRouter after _load_config).  The YAML
dictionaries routing_rules and fallback_chain are modelled as total
functions: a missing routing_rules key is the none value (the code then
defaults to standard), a missing fallback_chain key is the empty list
(the code default).  Tier names appearing in the configuration are assumed
valid, as load-time validation is outside the routed request path. -/
structure RouterConfig where
  models : List ModelConfig
  routing_rules : Complexity → Option QualityTier
  fallback_chain : QualityTier → List QualityTier
  short_text_max : ℕ
  medium_text_max : ℕ
  complex_keywords : List String
  simple_keywords : List String

/-- Price order on models used to sort each tier (input cost as proxy). -/
def costLe (a b : ModelConfig) : Prop :=
  a.cost_per_1k_input ≤ b.cost_per_1k_input

instance : DecidableRel costLe :=
  fun a b => inferInstanceAs (Decidable (a.cost_per_1k_input ≤ b.cost_per_1k_input))

instance : IsTotal ModelConfig costLe :=
  ⟨fun a b => le_total a.cost_per_1k_input b.cost_per_1k_input⟩

instance : IsTrans ModelConfig costLe :=
  ⟨fun _ _ _ h1 h2 => le_trans h1 h2⟩

/-- The models of one quality tier, in configuration order (the dict index
built by _load_config before sorting). -/
def tierModels (cfg : RouterConfig) (t : QualityTier) : List ModelConfig :=
  cfg.models.filter (fun m => m.quality_tier = t)

/-- The models of one quality tier sorted ascending by cost_per_1k_input.
Python list.sort is a stable sort by key; insertion sort with the
reflexive price order places each earlier element before the later
elements of equal key, hence is the same stable sort. -/
def sortedTierModels (cfg : RouterConfig) (t : QualityTier) : List ModelConfig :=
  (tierModels cfg t).insertionSort costLe

/-- The additive heuristic score of classify_complexity on nonempty text. -/
def complexityScore (cfg : RouterConfig) (text : List Char) : ℚ :=
  let text_lower := pyStrip (pyLower text)
  let char_count := text_lower.length
  let lengthScore : ℚ :=
    if char_count ≤ cfg.short_text_max then 0
    else if char_count ≤ cfg.medium_text_max then 1
    else 2
  let complex_matches := cfg.complex_keywords.countP (fun kw => pyContains text_lower kw.data)
  let simple_matches := cfg.simple_keywords.countP (fun kw => pyContains text_lower kw.data)
  let question_count := text_lower.count ('?')
  let questionScore : ℚ :=
    if 2 < question_count then 3 / 2
    else if 0 < question_count then 1 / 2
    else 0
  let list_items := countNumberedItems text + countBulletItems text
  let listScore : ℚ :=
    if 3 ≤ list_items then 2
    else if 1 ≤ list_items then 1 / 2
    else 0
  let codeScore : ℚ :=
    if codeIndicators.any (fun s => pyContains text s.data) then 3 / 2 else 0
  let word_count := pyWordCount text_lower
  let wordScore : ℚ :=
    if 200 < word_count then 3 / 2
    else if 50 < word_count then 1 / 2
    else 0
  lengthScore + (complex_matches : ℚ) * (3 / 2) - (simple_matches : ℚ) * 1
    + questionScore + listScore + codeScore + wordScore

/-- SmartRouter.classify_complexity. -/
def classify_complexity (cfg : RouterConfig) (text : String) : Complexity :=
  let text_lower := pyStrip (pyLower text.data)
  if text_lower.isEmpty then Complexity.simple
  else
    let score := complexityScore cfg text.data
    if score ≤ 1 then Complexity.simple
    else if score ≤ 7 / 2 then Complexity.moderate
    else Complexity.complex

/-- The loop of SmartRouter._get_cheapest_model over the sorted tier list:
skip a model when a cost ceiling is given and its estimate exceeds it,
otherwise return it; none when the list is exhausted. -/
def firstWithinBudget (max_cost : Option ℚ) (tin tout : ℤ) : List ModelConfig → Option ModelConfig
  | [] => none
  | m :: rest =>
    match max_cost with
    | some c =>
      if m.estimate_cost tin tout > c then firstWithinBudget max_cost tin tout rest
      else some m
    | none => some m

/-- SmartRouter._get_cheapest_model. -/
def get_cheapest_model (cfg : RouterConfig) (tier : QualityTier) (max_cost : Option ℚ)
    (tin tout : ℤ) : Option ModelConfig :=
  firstWithinBudget max_cost tin tout (sortedTierModels cfg tier)

/-- A routing request (models.py, class RoutingRequest). -/
structure RoutingRequest where
  content : String
  complexity : Option Complexity
  department : Option String
  project_id : Option String
  max_cost : Option ℚ
  required_quality : Option QualityTier

/-- A routing decision (models.py, class RoutingDecision). -/
structure RoutingDecision where
  selected_model : ModelConfig
  reason : String
  estimated_cost : ℚ
  quality_tier : QualityTier
  complexity : Complexity
deriving DecidableEq

/-- The single error SmartRouter.route raises (a ValueError whose message
carries the resolved complexity value and the request max_cost). -/
inductive RouteError
  | noSuitableModel (complexity : Complexity) (max_cost : Option ℚ)
deriving DecidableEq

/-- A single-quote character, used by the reason f-strings. -/
def sq : String :=
  String.singleton (Char.ofNat 39)

/-- Reason part: Complexity X mapped to Y tier. -/
def mappedReason (complexity : Complexity) (tier : QualityTier) : String :=
  "Complexity " ++ sq ++ complexity.value ++ sq ++ " mapped to " ++ sq
    ++ tier.value ++ sq ++ " tier"

/-- Reason part: Selected cheapest model in tier. -/
def selectedReason (m : ModelConfig) : String :=
  "Selected cheapest model in tier: " ++ m.name

/-- Reason part: No suitable model in the target tier, trying fallbacks. -/
def noSuitableReason (tier : QualityTier) : String :=
  "No suitable model in " ++ sq ++ tier.value ++ sq ++ " tier, trying fallbacks"

/-- Reason part: Fell back to a fallback tier. -/
def fellBackReason (tier : QualityTier) (m : ModelConfig) : String :=
  "Fell back to " ++ sq ++ tier.value ++ sq ++ " tier: " ++ m.name

/-- Step 1 of route: the request complexity if preset, else the classifier
(Python: request.complexity or self.classify_complexity(request.content);
enum members are truthy). -/
def resolvedComplexity (cfg : RouterConfig) (request : RoutingRequest) : Complexity :=
  request.complexity.getD (classify_complexity cfg request.content)

/-- Step 2 of route: required_quality when present, else the routing-rules
entry for the complexity, defaulting to standard. -/
def targetTier (cfg : RouterConfig) (request : RoutingRequest) : QualityTier :=
  match request.required_quality with
  | some q => q
  | none => (cfg.routing_rules (resolvedComplexity cfg request)).getD QualityTier.standard

/-- Token volume estimate of route: max(word_count times 2, 100), used for
both input and output. -/
def estimatedTokens (content : String) : ℕ :=
  max (pyWordCount content.data * 2) 100

/-- Step 4 of route: walk the fallback chain in listed order, stopping at
the first tier that yields a model; also report which tier it was. -/
def walkFallbacks (cfg : RouterConfig) (max_cost : Option ℚ) (tin tout : ℤ) :
    List QualityTier → Option (QualityTier × ModelConfig)
  | [] => none
  | t :: rest =>
    match get_cheapest_model cfg t max_cost tin tout with
    | some m => some (t, m)
    | none => walkFallbacks cfg max_cost tin tout rest

/-- SmartRouter.route. -/
def route (cfg : RouterConfig) (request : RoutingRequest) : Except RouteError RoutingDecision :=
  let complexity := resolvedComplexity cfg request
  let tier := targetTier cfg request
  let tin : ℤ := (estimatedTokens request.content : ℤ)
  match get_cheapest_model cfg tier request.max_cost tin tin with
  | some model =>
    Except.ok ⟨model, String.intercalate (". ") [mappedReason complexity tier, selectedReason model],
      model.estimate_cost tin tin, model.quality_tier, complexity⟩
  | none =>
    match walkFallbacks cfg request.max_cost tin tin (cfg.fallback_chain tier) with
    | some (ft, m) =>
      Except.ok ⟨m, String.intercalate (". ") [noSuitableReason tier, fellBackReason ft m],
        m.estimate_cost tin tin, m.quality_tier, complexity⟩
    | none => Except.error (RouteError.noSuitableModel complexity request.max_cost)

/-- SmartRouter.route_text: build a RoutingRequest from the text and the
keyword overrides and route it. -/
def route_text (cfg : RouterConfig) (text : String) (complexity : Option Complexity)
    (max_cost : Option ℚ) (required_quality : Option QualityTier) :
    Except RouteError RoutingDecision :=
  route cfg ⟨text, complexity, none, none, max_cost, required_quality⟩

/-- A per-model usage summary (models.py, class CostSummary), the row shape
returned by CostTracker.get_costs_by_model. -/
structure CostSummary where
  entity : String
  total_cost : ℚ
  request_count : ℕ
  total_input_tokens : ℕ
  total_output_tokens : ℕ
  avg_cost_per_request : ℚ
  avg_latency_ms : ℚ

/-- One row of TokenAnalytics.model_utilization_rates. -/
structure UtilizationRate where
  model : String
  request_count : ℕ
  request_pct : ℚ
  cost : ℚ
  cost_pct : ℚ

/-- The aggregation loop of TokenAnalytics.model_utilization_rates over the
summaries returned by the tracker query (the query itself is an external
collaborator). -/
def model_utilization_rates (summaries : List CostSummary) : List UtilizationRate :=
  let total_requests : ℕ := (summaries.map (fun s => s.request_count)).sum
  let total_cost : ℚ := (summaries.map (fun s => s.total_cost)).sum
  summaries.map (fun s =>
    let request_pct : ℚ :=
      if 0 < total_requests then (s.request_count : ℚ) / (total_requests : ℚ) * 100 else 0
    let cost_pct : ℚ :=
      if 0 < total_cost then s.total_cost / total_cost * 100 else 0
    ⟨s.entity, s.request_count, pyRound request_pct 2, s.total_cost, pyRound cost_pct 2⟩)

/-- A cost ceiling is satisfied: trivially when no ceiling is given, else
the estimate is at most the ceiling. -/
def fitsBudget (max_cost : Option ℚ) (est : ℚ) : Prop :=
  ∀ c, max_cost = some c → est ≤ c

instance (max_cost : Option ℚ) (est : ℚ) : Decidable (fitsBudget max_cost est) :=
  match max_cost with
  | none => isTrue (fun c h => by cases h)
  | some c =>
    if h : est ≤ c then isTrue (fun d hd => by cases hd; exact h)
    else isFalse (fun hall => h (hall c rfl))

/-! Concrete fixtures used by the witness theorems. -/

/-- Witness model: a cheap economy model. -/
def mEconW : ModelConfig :=
  ⟨"econ-a", "prov", "econ-a-id", 1 / 10000, 1 / 10000, 8192, QualityTier.economy⟩

/-- Witness model: an economy model with the same input price as mEconW but
a different output price, listed after it in the configuration. -/
def mEconW2 : ModelConfig :=
  ⟨"econ-b", "prov", "econ-b-id", 1 / 10000, 3 / 10000, 8192, QualityTier.economy⟩

/-- Witness model: a standard model. -/
def mStdW : ModelConfig :=
  ⟨"std", "prov", "std-id", 1 / 1000, 2 / 1000, 16384, QualityTier.standard⟩

/-- Witness model: a premium model. -/
def mPremW : ModelConfig :=
  ⟨"prem", "prov", "prem-id", 3 / 1000, 6 / 1000, 32768, QualityTier.premium⟩

/-- Witness routing rules: the default complexity-to-tier mapping. -/
def rulesW : Complexity → Option QualityTier
  | Complexity.simple => some QualityTier.economy
  | Complexity.moderate => some QualityTier.standard
  | Complexity.complex => some QualityTier.premium

/-- Witness fallback chains: premium and standard fall back to economy. -/
def fallbacksW : QualityTier → List QualityTier
  | QualityTier.premium => [QualityTier.economy]
  | QualityTier.standard => [QualityTier.economy]
  | QualityTier.economy => []

/-- Witness configuration with one model per tier. -/
def cfgW : RouterConfig :=
  ⟨[mEconW, mStdW, mPremW], rulesW, fallbacksW, 100, 500, [], []⟩

/-- Witness configuration whose economy tier has no models but falls back
to the standard tier. -/
def cfgEmptyEconW : RouterConfig :=
  ⟨[mStdW], rulesW, fun _ => [QualityTier.standard], 100, 500, [], []⟩

/-- Witness configuration with a price tie inside the economy tier. -/
def cfgTieW : RouterConfig :=
  ⟨[mEconW, mEconW2, mStdW], rulesW, fallbacksW, 100, 500, [], []⟩

/-- Witness request: hello with preset simple complexity and a budget. -/
def reqBudgetW : RoutingRequest :=
  ⟨"hello", some Complexity.simple, none, none, some (1 / 100), none⟩

/-- Witness request: hello with preset simple complexity and a zero budget. -/
def reqZeroW : RoutingRequest :=
  ⟨"hello", some Complexity.simple, none, none, some 0, none⟩

/-- Witness request: routed to the empty economy tier. -/
def reqHiW : RoutingRequest :=
  ⟨"hi", some Complexity.simple, none, none, none, none⟩

/-- Witness request: premium required but priced out by the budget. -/
def reqPremBudgetW : RoutingRequest :=
  ⟨"hello", some Complexity.simple, none, none, some (1 / 10000), some QualityTier.premium⟩

/-- Witness usage summaries for the utilization-rate claim. -/
def summariesW : List CostSummary :=
  [⟨"m1", 1, 1, 50, 50, 1, 10⟩, ⟨"m2", 3, 1, 70, 70, 3, 10⟩]

/-! Rounding lemmas. -/

/-- Round half to even is at most one half above the value. -/
theorem roundHalfEven_le (x : ℚ) : (roundHalfEven x : ℚ) ≤ x + 1 / 2 := by
  unfold roundHalfEven
  have h1 := Int.floor_le x
  have h2 := Int.lt_floor_add_one x
  split_ifs <;> push_cast <;> linarith

/-- Round half to even is at least one half below the value. -/
theorem roundHalfEven_ge (x : ℚ) : x - 1 / 2 ≤ (roundHalfEven x : ℚ) := by
  unfold roundHalfEven
  have h1 := Int.floor_le x
  have h2 := Int.lt_floor_add_one x
  split_ifs <;> push_cast <;> linarith

/-- Round half to even is monotone. -/
theorem roundHalfEven_mono {x y : ℚ} (h : x ≤ y) : roundHalfEven x ≤ roundHalfEven y := by
  rcases eq_or_lt_of_le h with rfl | hlt
  · exact le_refl _
  · by_contra hc
    push_neg at hc
    have h1 : (roundHalfEven y : ℚ) + 1 ≤ (roundHalfEven x : ℚ) := by
      exact_mod_cast Int.add_one_le_iff.mpr hc
    have h2 := roundHalfEven_le x
    have h3 := roundHalfEven_ge y
    linarith

/-- Python round is monotone. -/
theorem pyRound_mono {x y : ℚ} (k : ℕ) (h : x ≤ y) : pyRound x k ≤ pyRound y k := by
  unfold pyRound
  have hp : (0 : ℚ) < 10 ^ k := by positivity
  apply (div_le_div_iff_of_pos_right hp).mpr
  exact_mod_cast roundHalfEven_mono (mul_le_mul_of_nonneg_right h (le_of_lt hp))

/-- Python round moves the value by at most half a unit in the last place. -/
theorem pyRound_abs_sub_le (x : ℚ) (k : ℕ) : |pyRound x k - x| ≤ 1 / 2 / 10 ^ k := by
  have hp : (0 : ℚ) < 10 ^ k := by positivity
  have key : pyRound x k - x = ((roundHalfEven (x * 10 ^ k) : ℚ) - x * 10 ^ k) / 10 ^ k := by
    unfold pyRound
    field_simp
    ring
  rw [key, abs_div, abs_of_pos hp]
  apply (div_le_div_iff_of_pos_right hp).mpr
  have h2 := roundHalfEven_le (x * 10 ^ k)
  have h3 := roundHalfEven_ge (x * 10 ^ k)
  rw [abs_le]
  constructor <;> linarith

/-- Python round is the identity on a value that is already an integer
multiple of the rounding unit. -/
theorem pyRound_eq_self (x : ℚ) (k : ℕ) (n : ℤ) (h : x * 10 ^ k = (n : ℚ)) :
    pyRound x k = x := by
  have hp : (0 : ℚ) < 10 ^ k := by positivity
  unfold pyRound roundHalfEven
  rw [h, Int.floor_intCast]
  rw [if_pos (by norm_num)]
  rw [eq_comm, eq_div_iff (ne_of_gt hp)]
  exact h

/-! ModelConfig.estimate_cost lemmas. -/

/-- The estimate is the rounded linear cost formula (definitional). -/
theorem estimate_cost_def (m : ModelConfig) (tin tout : ℤ) :
    m.estimate_cost tin tout =
      pyRound ((tin : ℚ) / 1000 * m.cost_per_1k_input
        + (tout : ℚ) / 1000 * m.cost_per_1k_output) 6 :=
  rfl

/-- The estimate is monotone in both token counts when prices are
nonnegative. -/
theorem estimate_cost_mono (m : ModelConfig) {tin tout tin2 tout2 : ℤ}
    (hin : 0 ≤ m.cost_per_1k_input) (hout : 0 ≤ m.cost_per_1k_output)
    (h1 : tin ≤ tin2) (h2 : tout ≤ tout2) :
    m.estimate_cost tin tout ≤ m.estimate_cost tin2 tout2 := by
  unfold ModelConfig.estimate_cost
  apply pyRound_mono
  have c1 : (tin : ℚ) ≤ (tin2 : ℚ) := by exact_mod_cast h1
  have c2 : (tout : ℚ) ≤ (tout2 : ℚ) := by exact_mod_cast h2
  gcongr

/-! Budget and tier-scan lemmas. -/

/-- Without a ceiling every estimate fits. -/
theorem fitsBudget_none (e : ℚ) : fitsBudget none e :=
  fun _ h => nomatch h

/-- With a ceiling, fitting means the estimate is at most the ceiling. -/
theorem fitsBudget_some_iff (c e : ℚ) : fitsBudget (some c) e ↔ e ≤ c := by
  constructor
  · intro h
    exact h c rfl
  · intro h d hd
    cases hd
    exact h

/-- With no ceiling the scan returns the first model of the list. -/
theorem firstWithinBudget_none_head (tin tout : ℤ) (l : List ModelConfig) :
    firstWithinBudget none tin tout l = l.head? := by
  cases l <;> rfl

/-- The scan returns none exactly when no model of the list fits the
ceiling. -/
theorem firstWithinBudget_eq_none_iff (mc : Option ℚ) (tin tout : ℤ) (l : List ModelConfig) :
    firstWithinBudget mc tin tout l = none ↔
      ∀ m ∈ l, ¬ fitsBudget mc (m.estimate_cost tin tout) := by
  induction l with
  | nil => simp [firstWithinBudget]
  | cons m rest ih =>
    cases mc with
    | none =>
      simp only [firstWithinBudget]
      constructor
      · intro h
        cases h
      · intro h
        exact absurd (fitsBudget_none _) (h m (List.mem_cons_self m rest))
    | some c =>
      by_cases hgt : m.estimate_cost tin tout > c
      · simp only [firstWithinBudget, if_pos hgt]
        rw [ih]
        constructor
        · intro h m2 hm2
          rcases List.mem_cons.mp hm2 with rfl | hr
          · rw [fitsBudget_some_iff]
            exact not_le_of_lt hgt
          · exact h m2 hr
        · intro h m2 hm2
          exact h m2 (List.mem_cons_of_mem m hm2)
      · simp only [firstWithinBudget, if_neg hgt]
        constructor
        · intro h
          cases h
        · intro h
          refine absurd ?_ (h m (List.mem_cons_self m rest))
          rw [fitsBudget_some_iff]
          exact le_of_not_lt hgt

/-- The model returned by the scan is in the scanned list. -/
theorem firstWithinBudget_mem {mc : Option ℚ} {tin tout : ℤ} {l : List ModelConfig}
    {m : ModelConfig} (h : firstWithinBudget mc tin tout l = some m) : m ∈ l := by
  induction l with
  | nil => cases h
  | cons a rest ih =>
    cases mc with
    | none =>
      simp only [firstWithinBudget] at h
      cases h
      exact List.mem_cons_self _ _
    | some c =>
      by_cases hgt : a.estimate_cost tin tout > c
      · rw [firstWithinBudget, if_pos hgt] at h
        exact List.mem_cons_of_mem a (ih h)
      · rw [firstWithinBudget, if_neg hgt] at h
        cases h
        exact List.mem_cons_self _ _

/-- The model returned by the scan fits the ceiling. -/
theorem firstWithinBudget_fits {mc : Option ℚ} {tin tout : ℤ} {l : List ModelConfig}
    {m : ModelConfig} (h : firstWithinBudget mc tin tout l = some m) :
    fitsBudget mc (m.estimate_cost tin tout) := by
  induction l with
  | nil => cases h
  | cons a rest ih =>
    cases mc with
    | none =>
      exact fitsBudget_none _
    | some c =>
      by_cases hgt : a.estimate_cost tin tout > c
      · rw [firstWithinBudget, if_pos hgt] at h
        exact ih h
      · rw [firstWithinBudget, if_neg hgt] at h
        cases h
        rw [fitsBudget_some_iff]
        exact le_of_not_lt hgt

/-- The sorted tier list is a permutation of the configuration-order tier
list. -/
theorem sortedTierModels_perm (cfg : RouterConfig) (t : QualityTier) :
    (sortedTierModels cfg t).Perm (tierModels cfg t) :=
  List.perm_insertionSort costLe (tierModels cfg t)

/-- Membership in a tier list forces the quality tier. -/
theorem mem_tierModels_quality {cfg : RouterConfig} {t : QualityTier} {m : ModelConfig}
    (h : m ∈ tierModels cfg t) : m.quality_tier = t := by
  have h2 := (List.mem_filter.mp h).2
  simpa using h2

/-- A tier list is a subcollection of the configured model list. -/
theorem mem_tierModels_models {cfg : RouterConfig} {t : QualityTier} {m : ModelConfig}
    (h : m ∈ tierModels cfg t) : m ∈ cfg.models :=
  (List.mem_filter.mp h).1

/-- The head of the sorted tier list has minimal input price in the tier. -/
theorem sorted_head_min {cfg : RouterConfig} {t : QualityTier} {m : ModelConfig}
    (h : (sortedTierModels cfg t).head? = some m) :
    ∀ m2 ∈ tierModels cfg t, m.cost_per_1k_input ≤ m2.cost_per_1k_input := by
  have hs : List.Sorted costLe (sortedTierModels cfg t) :=
    List.sorted_insertionSort costLe (tierModels cfg t)
  intro m2 hm2
  have hm2s : m2 ∈ sortedTierModels cfg t := ((sortedTierModels_perm cfg t).mem_iff).mpr hm2
  cases hl : sortedTierModels cfg t with
  | nil =>
    rw [hl] at h
    cases h
  | cons a r =>
    rw [hl] at h hm2s hs
    injection h with h
    subst h
    rcases List.mem_cons.mp hm2s with rfl | hr
    · exact le_refl _
    · exact (List.sorted_cons.mp hs).1 m2 hr

/-- Stability of the tier sort: the head of the sorted list is the first
element of the original list having its input price. -/
theorem insertionSort_head?_find? :
    ∀ (l : List ModelConfig) (m : ModelConfig),
      (l.insertionSort costLe).head? = some m →
      l.find? (fun x => decide (x.cost_per_1k_input = m.cost_per_1k_input)) = some m := by
  intro l
  induction l with
  | nil =>
    intro m h
    cases h
  | cons a t ih =>
    intro m h
    rw [List.insertionSort] at h
    cases ht : List.insertionSort costLe t with
    | nil =>
      rw [ht] at h
      simp only [List.orderedInsert, List.head?] at h
      injection h with h
      subst h
      simp [List.find?]
    | cons b s =>
      rw [ht] at h
      by_cases hab : costLe a b
      · rw [List.orderedInsert, if_pos hab] at h
        simp only [List.head?] at h
        injection h with h
        subst h
        simp [List.find?]
      · rw [List.orderedInsert, if_neg hab] at h
        simp only [List.head?] at h
        injection h with h
        have hbt : t.find? (fun x => decide (x.cost_per_1k_input = b.cost_per_1k_input))
            = some b := by
          apply ih
          rw [ht]
          rfl
        have hne : ¬ (a.cost_per_1k_input = b.cost_per_1k_input) := by
          have hlt : b.cost_per_1k_input < a.cost_per_1k_input := lt_of_not_le hab
          exact fun he => absurd he.symm (ne_of_lt hlt)
        rw [← h, List.find?_cons, decide_eq_false hne]
        exact hbt

/-- _get_cheapest_model returns none exactly when no model of the tier
fits the ceiling (in particular, when the tier is empty). -/
theorem get_cheapest_model_none_iff (cfg : RouterConfig) (t : QualityTier) (mc : Option ℚ)
    (tin tout : ℤ) :
    get_cheapest_model cfg t mc tin tout = none ↔
      ∀ m ∈ tierModels cfg t, ¬ fitsBudget mc (m.estimate_cost tin tout) := by
  unfold get_cheapest_model
  rw [firstWithinBudget_eq_none_iff]
  constructor
  · intro h m hm
    exact h m (((sortedTierModels_perm cfg t).mem_iff).mpr hm)
  · intro h m hm
    exact h m (((sortedTierModels_perm cfg t).mem_iff).mp hm)

/-- A model returned by _get_cheapest_model belongs to the tier. -/
theorem get_cheapest_model_mem {cfg : RouterConfig} {t : QualityTier} {mc : Option ℚ}
    {tin tout : ℤ} {m : ModelConfig} (h : get_cheapest_model cfg t mc tin tout = some m) :
    m ∈ tierModels cfg t :=
  ((sortedTierModels_perm cfg t).mem_iff).mp (firstWithinBudget_mem h)

/-- A model returned by _get_cheapest_model fits the ceiling. -/
theorem get_cheapest_model_fits {cfg : RouterConfig} {t : QualityTier} {mc : Option ℚ}
    {tin tout : ℤ} {m : ModelConfig} (h : get_cheapest_model cfg t mc tin tout = some m) :
    fitsBudget mc (m.estimate_cost tin tout) :=
  firstWithinBudget_fits h

/-- With no ceiling, _get_cheapest_model is the head of the sorted tier. -/
theorem get_cheapest_model_none_budget (cfg : RouterConfig) (t : QualityTier) (tin tout : ℤ) :
    get_cheapest_model cfg t none tin tout = (sortedTierModels cfg t).head? := by
  unfold get_cheapest_model
  exact firstWithinBudget_none_head tin tout _

/-- The fallback walk fails exactly when every listed tier fails. -/
theorem walkFallbacks_none_iff (cfg : RouterConfig) (mc : Option ℚ) (tin tout : ℤ)
    (ts : List QualityTier) :
    walkFallbacks cfg mc tin tout ts = none ↔
      ∀ t ∈ ts, get_cheapest_model cfg t mc tin tout = none := by
  induction ts with
  | nil => simp [walkFallbacks]
  | cons a rest ih =>
    cases hgc : get_cheapest_model cfg a mc tin tout with
    | some m =>
      simp only [walkFallbacks, hgc]
      constructor
      · intro h
        cases h
      · intro h
        rw [h a (List.mem_cons_self a rest)] at hgc
        cases hgc
    | none =>
      simp only [walkFallbacks, hgc]
      rw [ih]
      constructor
      · intro h t ht
        rcases List.mem_cons.mp ht with rfl | hr
        · exact hgc
        · exact h t hr
      · intro h t ht
        exact h t (List.mem_cons_of_mem a ht)

/-- The fallback walk stops at the first tier that yields a model. -/
theorem walkFallbacks_first (cfg : RouterConfig) (mc : Option ℚ) (tin tout : ℤ)
    (pre : List QualityTier) (ft : QualityTier) (suf : List QualityTier) (m : ModelConfig)
    (hpre : ∀ t ∈ pre, get_cheapest_model cfg t mc tin tout = none)
    (hm : get_cheapest_model cfg ft mc tin tout = some m) :
    walkFallbacks cfg mc tin tout (pre ++ ft :: suf) = some (ft, m) := by
  induction pre with
  | nil =>
    simp only [List.nil_append, walkFallbacks, hm]
  | cons p ps ih =>
    have hp : get_cheapest_model cfg p mc tin tout = none :=
      hpre p (List.mem_cons_self p ps)
    simp only [List.cons_append, walkFallbacks, hp]
    exact ih (fun t ht => hpre t (List.mem_cons_of_mem p ht))

/-- The pair returned by the fallback walk is a successful tier lookup. -/
theorem walkFallbacks_some {cfg : RouterConfig} {mc : Option ℚ} {tin tout : ℤ}
    {ts : List QualityTier} {ft : QualityTier} {m : ModelConfig}
    (h : walkFallbacks cfg mc tin tout ts = some (ft, m)) :
    get_cheapest_model cfg ft mc tin tout = some m := by
  induction ts with
  | nil => cases h
  | cons a rest ih =>
    cases hgc : get_cheapest_model cfg a mc tin tout with
    | some m2 =>
      rw [walkFallbacks, hgc] at h
      injection h with h
      injection h with h1 h2
      subst h1
      subst h2
      exact hgc
    | none =>
      rw [walkFallbacks, hgc] at h
      exact ih h

/-! Character and whitespace lemmas for the classifier. -/

/-- Character equality is equality of code points. -/
theorem char_eq_iff_toNat (c d : Char) : c = d ↔ c.toNat = d.toNat := by
  constructor
  · intro h
    rw [h]
  · intro h
    apply Char.ext
    apply UInt32.ext
    simpa [Char.toNat] using h

/-- Whitespace as a predicate on the code point. -/
theorem isPySpace_iff_toNat (c : Char) :
    isPySpace c = true ↔
      (c.toNat = 32 ∨ c.toNat = 9 ∨ c.toNat = 10 ∨ c.toNat = 13 ∨ c.toNat = 11 ∨ c.toNat = 12) := by
  unfold isPySpace
  simp only [Bool.or_eq_true, decide_eq_true_eq]
  rw [char_eq_iff_toNat, char_eq_iff_toNat, char_eq_iff_toNat, char_eq_iff_toNat,
    char_eq_iff_toNat, char_eq_iff_toNat]
  simp only [show (' ' : Char).toNat = 32 from rfl, show ('\t' : Char).toNat = 9 from rfl,
    show ('\n' : Char).toNat = 10 from rfl, show ('\r' : Char).toNat = 13 from rfl,
    show ('\x0b' : Char).toNat = 11 from rfl, show ('\x0c' : Char).toNat = 12 from rfl]
  tauto

/-- Valid code points survive the Char.ofNat round trip. -/
theorem toNat_ofNat_valid {n : ℕ} (h1 : 97 ≤ n) (h2 : n ≤ 122) :
    (Char.ofNat n).toNat = n := by
  unfold Char.ofNat
  split
  · rfl
  · next h =>
    exact absurd (Or.inl (by omega) : n.isValidChar) h

/-- Lower-casing does not change whether a character is whitespace. -/
theorem isPySpace_toLower (c : Char) : isPySpace c.toLower = isPySpace c := by
  simp only [Char.toLower]
  split
  · next h =>
    have hn : (Char.ofNat (c.toNat + 32)).toNat = c.toNat + 32 :=
      toNat_ofNat_valid (by omega) (by omega)
    have hl : isPySpace (Char.ofNat (c.toNat + 32)) = false := by
      rw [Bool.eq_false_iff]
      intro hsp
      rw [isPySpace_iff_toNat, hn] at hsp
      omega
    have hr : isPySpace c = false := by
      rw [Bool.eq_false_iff]
      intro hsp
      rw [isPySpace_iff_toNat] at hsp
      omega
    rw [hl, hr]
  · rfl

/-- The strip of a text is empty exactly when it is all whitespace. -/
theorem pyStrip_eq_nil_iff (cs : List Char) :
    pyStrip cs = [] ↔ ∀ c ∈ cs, isPySpace c = true := by
  unfold pyStrip
  rw [List.reverse_eq_nil_iff, List.dropWhile_eq_nil_iff]
  constructor
  · intro h c hc
    have hsplit : cs.takeWhile isPySpace ++ cs.dropWhile isPySpace = cs :=
      List.takeWhile_append_dropWhile isPySpace cs
    rw [← hsplit] at hc
    rcases List.mem_append.mp hc with h1 | h2
    · exact List.mem_takeWhile_imp h1
    · exact h c (List.mem_reverse.mpr h2)
  · intro h x hx
    exact h x ((List.dropWhile_sublist isPySpace).subset (List.mem_reverse.mp hx))

/-- The lowered text is all whitespace exactly when the text is. -/
theorem pyLower_all_space (cs : List Char) :
    (∀ c ∈ pyLower cs, isPySpace c = true) ↔ ∀ c ∈ cs, isPySpace c = true := by
  unfold pyLower
  constructor
  · intro h c hc
    rw [← isPySpace_toLower]
    exact h c.toLower (List.mem_map_of_mem Char.toLower hc)
  · intro h x hx
    rcases List.mem_map.mp hx with ⟨c, hc, rfl⟩
    rw [isPySpace_toLower]
    exact h c hc

/-! Route unfolding equations. -/

/-- When the target tier yields a model, route succeeds with it. -/
theorem route_primary_eq (cfg : RouterConfig) (request : RoutingRequest) (model : ModelConfig)
    (hgc : get_cheapest_model cfg (targetTier cfg request) request.max_cost
      ((estimatedTokens request.content : ℤ)) ((estimatedTokens request.content : ℤ))
      = some model) :
    route cfg request = Except.ok ⟨model,
      String.intercalate (". ")
        [mappedReason (resolvedComplexity cfg request) (targetTier cfg request),
          selectedReason model],
      model.estimate_cost ((estimatedTokens request.content : ℤ))
        ((estimatedTokens request.content : ℤ)),
      model.quality_tier, resolvedComplexity cfg request⟩ := by
  simp only [route]
  rw [hgc]

/-- When the target tier fails and the fallback walk yields a pair, route
succeeds with the fallback decision. -/
theorem route_fallback_eq (cfg : RouterConfig) (request : RoutingRequest)
    (ft : QualityTier) (m : ModelConfig)
    (hgc : get_cheapest_model cfg (targetTier cfg request) request.max_cost
      ((estimatedTokens request.content : ℤ)) ((estimatedTokens request.content : ℤ)) = none)
    (hwf : walkFallbacks cfg request.max_cost
      ((estimatedTokens request.content : ℤ)) ((estimatedTokens request.content : ℤ))
      (cfg.fallback_chain (targetTier cfg request)) = some (ft, m)) :
    route cfg request = Except.ok ⟨m,
      String.intercalate (". ")
        [noSuitableReason (targetTier cfg request), fellBackReason ft m],
      m.estimate_cost ((estimatedTokens request.content : ℤ))
        ((estimatedTokens request.content : ℤ)),
      m.quality_tier, resolvedComplexity cfg request⟩ := by
  simp only [route]
  rw [hgc, hwf]

/-- When the target tier and the whole fallback walk fail, route raises. -/
theorem route_error_eq (cfg : RouterConfig) (request : RoutingRequest)
    (hgc : get_cheapest_model cfg (targetTier cfg request) request.max_cost
      ((estimatedTokens request.content : ℤ)) ((estimatedTokens request.content : ℤ)) = none)
    (hwf : walkFallbacks cfg request.max_cost
      ((estimatedTokens request.content : ℤ)) ((estimatedTokens request.content : ℤ))
      (cfg.fallback_chain (targetTier cfg request)) = none) :
    route cfg request =
      Except.error (RouteError.noSuitableModel (resolvedComplexity cfg request)
        request.max_cost) := by
  simp only [route]
  rw [hgc, hwf]

/-! Estimates of the witness models at 100 input and 100 output tokens. -/

/-- Estimate of the witness economy model. -/
theorem estW_econ : mEconW.estimate_cost 100 100 = 1 / 50000 := by
  simp only [ModelConfig.estimate_cost, mEconW]
  rw [pyRound_eq_self _ 6 20 (by norm_num)]
  norm_num

/-- Estimate of the witness standard model. -/
theorem estW_std : mStdW.estimate_cost 100 100 = 3 / 10000 := by
  simp only [ModelConfig.estimate_cost, mStdW]
  rw [pyRound_eq_self _ 6 300 (by norm_num)]
  norm_num

/-- Estimate of the witness premium model. -/
theorem estW_prem : mPremW.estimate_cost 100 100 = 9 / 10000 := by
  simp only [ModelConfig.estimate_cost, mPremW]
  rw [pyRound_eq_self _ 6 900 (by norm_num)]
  norm_num

/-! Claim theorems. -/

/-- Claim C1: whenever route returns a decision, its estimated_cost equals
the selected model's estimate at the symmetric token volume T = max of
word count times two and 100, and is at most any given max_cost. -/
theorem route_decision_estimated_cost (cfg : RouterConfig) (request : RoutingRequest)
    (d : RoutingDecision) (h : route cfg request = Except.ok d) :
    d.estimated_cost =
      d.selected_model.estimate_cost ((estimatedTokens request.content : ℤ))
        ((estimatedTokens request.content : ℤ)) ∧
    ∀ c, request.max_cost = some c → d.estimated_cost ≤ c := by
  cases hgc : get_cheapest_model cfg (targetTier cfg request) request.max_cost
      ((estimatedTokens request.content : ℤ)) ((estimatedTokens request.content : ℤ)) with
  | some model =>
    rw [route_primary_eq cfg request model hgc] at h
    injection h with h
    subst h
    exact ⟨rfl, fun c hc => (get_cheapest_model_fits hgc) c hc⟩
  | none =>
    cases hwf : walkFallbacks cfg request.max_cost
        ((estimatedTokens request.content : ℤ)) ((estimatedTokens request.content : ℤ))
        (cfg.fallback_chain (targetTier cfg request)) with
    | some pair =>
      obtain ⟨ft, m⟩ := pair
      rw [route_fallback_eq cfg request ft m hgc hwf] at h
      injection h with h
      subst h
      exact ⟨rfl, fun c hc => (get_cheapest_model_fits (walkFallbacks_some hwf)) c hc⟩
    | none =>
      rw [route_error_eq cfg request hgc hwf] at h
      cases h

/-- Claim C1 witness at a concrete configuration and budgeted request. -/
theorem route_decision_estimated_cost_witness :
    (⟨mEconW,
      String.intercalate (". ")
        [mappedReason Complexity.simple QualityTier.economy, selectedReason mEconW],
      mEconW.estimate_cost 100 100, mEconW.quality_tier,
      Complexity.simple⟩ : RoutingDecision).estimated_cost =
      mEconW.estimate_cost 100 100 ∧
    ∀ c, reqBudgetW.max_cost = some c →
      (⟨mEconW,
        String.intercalate (". ")
          [mappedReason Complexity.simple QualityTier.economy, selectedReason mEconW],
        mEconW.estimate_cost 100 100, mEconW.quality_tier,
        Complexity.simple⟩ : RoutingDecision).estimated_cost ≤ c := by
  apply route_decision_estimated_cost cfgW reqBudgetW
  apply route_primary_eq cfgW reqBudgetW mEconW
  show firstWithinBudget (some (1 / 100)) 100 100 [mEconW] = some mEconW
  simp only [firstWithinBudget]
  rw [if_neg]
  rw [estW_econ]
  norm_num

/-- Claim C2: route raises exactly when no model of the target tier nor of
any tier of its fallback chain fits the ceiling, the error is the
no-suitable-model error carrying the resolved complexity and the request
max_cost, and a returned decision never violates a given ceiling. -/
theorem route_error_characterization (cfg : RouterConfig) (request : RoutingRequest) :
    ((∃ e, route cfg request = Except.error e) ↔
      ((∀ m ∈ tierModels cfg (targetTier cfg request),
          ¬ fitsBudget request.max_cost
            (m.estimate_cost ((estimatedTokens request.content : ℤ))
              ((estimatedTokens request.content : ℤ)))) ∧
        (∀ t ∈ cfg.fallback_chain (targetTier cfg request), ∀ m ∈ tierModels cfg t,
          ¬ fitsBudget request.max_cost
            (m.estimate_cost ((estimatedTokens request.content : ℤ))
              ((estimatedTokens request.content : ℤ)))))) ∧
    (∀ e, route cfg request = Except.error e →
      e = RouteError.noSuitableModel (resolvedComplexity cfg request) request.max_cost) ∧
    (∀ d c, route cfg request = Except.ok d → request.max_cost = some c →
      d.estimated_cost ≤ c) := by
  refine ⟨⟨?_, ?_⟩, ?_, ?_⟩
  · rintro ⟨e, he⟩
    cases hgc : get_cheapest_model cfg (targetTier cfg request) request.max_cost
        ((estimatedTokens request.content : ℤ)) ((estimatedTokens request.content : ℤ)) with
    | some model =>
      rw [route_primary_eq cfg request model hgc] at he
      cases he
    | none =>
      cases hwf : walkFallbacks cfg request.max_cost
          ((estimatedTokens request.content : ℤ)) ((estimatedTokens request.content : ℤ))
          (cfg.fallback_chain (targetTier cfg request)) with
      | some pair =>
        obtain ⟨ft, m⟩ := pair
        rw [route_fallback_eq cfg request ft m hgc hwf] at he
        cases he
      | none =>
        refine ⟨(get_cheapest_model_none_iff cfg _ _ _ _).mp hgc, fun t ht => ?_⟩
        have hall := (walkFallbacks_none_iff cfg request.max_cost _ _ _).mp hwf
        exact (get_cheapest_model_none_iff cfg _ _ _ _).mp (hall t ht)
  · rintro ⟨h1, h2⟩
    have hgc : get_cheapest_model cfg (targetTier cfg request) request.max_cost
        ((estimatedTokens request.content : ℤ)) ((estimatedTokens request.content : ℤ))
        = none := (get_cheapest_model_none_iff cfg _ _ _ _).mpr h1
    have hwf : walkFallbacks cfg request.max_cost
        ((estimatedTokens request.content : ℤ)) ((estimatedTokens request.content : ℤ))
        (cfg.fallback_chain (targetTier cfg request)) = none :=
      (walkFallbacks_none_iff cfg request.max_cost _ _ _).mpr
        (fun t ht => (get_cheapest_model_none_iff cfg _ _ _ _).mpr (h2 t ht))
    exact ⟨_, route_error_eq cfg request hgc hwf⟩
  · intro e he
    cases hgc : get_cheapest_model cfg (targetTier cfg request) request.max_cost
        ((estimatedTokens request.content : ℤ)) ((estimatedTokens request.content : ℤ)) with
    | some model =>
      rw [route_primary_eq cfg request model hgc] at he
      cases he
    | none =>
      cases hwf : walkFallbacks cfg request.max_cost
          ((estimatedTokens request.content : ℤ)) ((estimatedTokens request.content : ℤ))
          (cfg.fallback_chain (targetTier cfg request)) with
      | some pair =>
        obtain ⟨ft, m⟩ := pair
        rw [route_fallback_eq cfg request ft m hgc hwf] at he
        cases he
      | none =>
        rw [route_error_eq cfg request hgc hwf] at he
        injection he with he
        exact he.symm
  · intro d c hok hc
    cases hgc : get_cheapest_model cfg (targetTier cfg request) request.max_cost
        ((estimatedTokens request.content : ℤ)) ((estimatedTokens request.content : ℤ)) with
    | some model =>
      rw [route_primary_eq cfg request model hgc] at hok
      injection hok with hok
      subst hok
      exact (get_cheapest_model_fits hgc) c hc
    | none =>
      cases hwf : walkFallbacks cfg request.max_cost
          ((estimatedTokens request.content : ℤ)) ((estimatedTokens request.content : ℤ))
          (cfg.fallback_chain (targetTier cfg request)) with
      | some pair =>
        obtain ⟨ft, m⟩ := pair
        rw [route_fallback_eq cfg request ft m hgc hwf] at hok
        injection hok with hok
        subst hok
        exact (get_cheapest_model_fits (walkFallbacks_some hwf)) c hc
      | none =>
        rw [route_error_eq cfg request hgc hwf] at hok
        cases hok

/-- Claim C2 witness: at a concrete configuration with a zero ceiling the
characterization produces the error existence. -/
theorem route_error_characterization_witness :
    ∃ e, route cfgW reqZeroW = Except.error e := by
  apply (route_error_characterization cfgW reqZeroW).1.mpr
  constructor
  · intro m hm
    rw [show tierModels cfgW (targetTier cfgW reqZeroW) = [mEconW] from rfl] at hm
    rw [show m ∈ [mEconW] ↔ m = mEconW from List.mem_singleton] at hm
    subst hm
    intro hfit
    have := hfit 0 rfl
    rw [show ((estimatedTokens reqZeroW.content : ℤ)) = 100 from rfl, estW_econ] at this
    norm_num at this
  · intro t ht m hm
    rw [show cfgW.fallback_chain (targetTier cfgW reqZeroW) = [] from rfl] at ht
    cases ht

/-- Claim C5: when the target tier yields no model, route walks the
configured fallback chain in listed order, stops at the first tier that
yields a model, and returns that model with a reason naming the fallback
tier and model. -/
theorem route_fallback_first_success (cfg : RouterConfig) (request : RoutingRequest)
    (pre : List QualityTier) (ft : QualityTier) (suf : List QualityTier) (m : ModelConfig)
    (h0 : get_cheapest_model cfg (targetTier cfg request) request.max_cost
      ((estimatedTokens request.content : ℤ)) ((estimatedTokens request.content : ℤ)) = none)
    (hchain : cfg.fallback_chain (targetTier cfg request) = pre ++ ft :: suf)
    (hpre : ∀ t ∈ pre, get_cheapest_model cfg t request.max_cost
      ((estimatedTokens request.content : ℤ)) ((estimatedTokens request.content : ℤ)) = none)
    (hm : get_cheapest_model cfg ft request.max_cost
      ((estimatedTokens request.content : ℤ)) ((estimatedTokens request.content : ℤ))
      = some m) :
    route cfg request = Except.ok ⟨m,
      String.intercalate (". ")
        [noSuitableReason (targetTier cfg request), fellBackReason ft m],
      m.estimate_cost ((estimatedTokens request.content : ℤ))
        ((estimatedTokens request.content : ℤ)),
      m.quality_tier, resolvedComplexity cfg request⟩ := by
  have hwf : walkFallbacks cfg request.max_cost
      ((estimatedTokens request.content : ℤ)) ((estimatedTokens request.content : ℤ))
      (cfg.fallback_chain (targetTier cfg request)) = some (ft, m) := by
    rw [hchain]
    exact walkFallbacks_first cfg request.max_cost _ _ pre ft suf m hpre hm
  exact route_fallback_eq cfg request ft m h0 hwf

/-- Claim C5 witness: a configured tier with no models and a nonempty
fallback chain yields the model of the first fallback tier. -/
theorem route_fallback_first_success_witness :
    route cfgEmptyEconW reqHiW = Except.ok ⟨mStdW,
      String.intercalate (". ")
        [noSuitableReason QualityTier.economy, fellBackReason QualityTier.standard mStdW],
      mStdW.estimate_cost 100 100, mStdW.quality_tier, Complexity.simple⟩ := by
  apply route_fallback_first_success cfgEmptyEconW reqHiW [] QualityTier.standard [] mStdW
  · rfl
  · rfl
  · intro t ht
    cases ht
  · rfl

/-- Claim C6: with required_quality premium and no cost ceiling, route_text
returns a premium-tier model for every text, whenever the premium tier is
nonempty. -/
theorem route_text_required_premium (cfg : RouterConfig) (text : String)
    (hne : tierModels cfg QualityTier.premium ≠ []) :
    ∃ d, route_text cfg text none none (some QualityTier.premium) = Except.ok d ∧
      d.quality_tier = QualityTier.premium ∧
      d.selected_model.quality_tier = QualityTier.premium := by
  have hlen : sortedTierModels cfg QualityTier.premium ≠ [] := by
    intro hnil
    apply hne
    have hl := (sortedTierModels_perm cfg QualityTier.premium).length_eq
    rw [hnil] at hl
    exact List.eq_nil_of_length_eq_zero hl.symm
  obtain ⟨m, hm⟩ : ∃ m, (sortedTierModels cfg QualityTier.premium).head? = some m := by
    cases hl : sortedTierModels cfg QualityTier.premium with
    | nil => exact absurd hl hlen
    | cons a r => exact ⟨a, rfl⟩
  have hmem : m ∈ tierModels cfg QualityTier.premium := by
    apply ((sortedTierModels_perm cfg QualityTier.premium).mem_iff).mp
    cases hl : sortedTierModels cfg QualityTier.premium with
    | nil => exact absurd hl hlen
    | cons a r =>
      rw [hl] at hm
      injection hm with hm
      rw [hm]
      exact List.mem_cons_self _ _
  have htier : m.quality_tier = QualityTier.premium := mem_tierModels_quality hmem
  have hgc : get_cheapest_model cfg
      (targetTier cfg ⟨text, none, none, none, none, some QualityTier.premium⟩)
      (⟨text, none, none, none, none, some QualityTier.premium⟩ : RoutingRequest).max_cost
      ((estimatedTokens text : ℤ)) ((estimatedTokens text : ℤ)) = some m := by
    show get_cheapest_model cfg QualityTier.premium none _ _ = some m
    rw [get_cheapest_model_none_budget]
    exact hm
  exact ⟨_, route_primary_eq cfg ⟨text, none, none, none, none, some QualityTier.premium⟩ m hgc,
    htier, htier⟩

/-- Claim C6 witness at a concrete configuration. -/
theorem route_text_required_premium_witness :
    ∃ d, route_text cfgW ("hello") none none (some QualityTier.premium) = Except.ok d ∧
      d.quality_tier = QualityTier.premium ∧
      d.selected_model.quality_tier = QualityTier.premium :=
  route_text_required_premium cfgW ("hello") (by decide)

/-- Claim C7: when required_quality is set but its tier has no model within
the ceiling, route walks the fallback chain of the required tier and can
return a model of a different tier, still within the ceiling. -/
theorem route_required_quality_budget_fallback (cfg : RouterConfig) (request : RoutingRequest)
    (rq : QualityTier) (c : ℚ) (pre : List QualityTier) (ft : QualityTier)
    (suf : List QualityTier) (m : ModelConfig)
    (hrq : request.required_quality = some rq)
    (hmc : request.max_cost = some c)
    (h0 : get_cheapest_model cfg rq (some c)
      ((estimatedTokens request.content : ℤ)) ((estimatedTokens request.content : ℤ)) = none)
    (hchain : cfg.fallback_chain rq = pre ++ ft :: suf)
    (hpre : ∀ t ∈ pre, get_cheapest_model cfg t (some c)
      ((estimatedTokens request.content : ℤ)) ((estimatedTokens request.content : ℤ)) = none)
    (hm : get_cheapest_model cfg ft (some c)
      ((estimatedTokens request.content : ℤ)) ((estimatedTokens request.content : ℤ))
      = some m) :
    ∃ d, route cfg request = Except.ok d ∧ d.selected_model = m ∧
      d.quality_tier = m.quality_tier ∧ d.estimated_cost ≤ c := by
  have htarget : targetTier cfg request = rq := by
    unfold targetTier
    rw [hrq]
  have h0t : get_cheapest_model cfg (targetTier cfg request) request.max_cost
      ((estimatedTokens request.content : ℤ)) ((estimatedTokens request.content : ℤ))
      = none := by
    rw [htarget, hmc]
    exact h0
  have hwf : walkFallbacks cfg request.max_cost
      ((estimatedTokens request.content : ℤ)) ((estimatedTokens request.content : ℤ))
      (cfg.fallback_chain (targetTier cfg request)) = some (ft, m) := by
    rw [htarget, hmc, hchain]
    exact walkFallbacks_first cfg (some c) _ _ pre ft suf m hpre hm
  refine ⟨_, route_fallback_eq cfg request ft m h0t hwf, rfl, rfl, ?_⟩
  exact (get_cheapest_model_fits hm) c rfl

/-- Claim C7 witness: premium required, priced out by the ceiling, and the
economy fallback model of a different tier is returned within the
ceiling. -/
theorem route_required_quality_budget_fallback_witness :
    (∃ d, route cfgW reqPremBudgetW = Except.ok d ∧ d.selected_model = mEconW ∧
      d.quality_tier = mEconW.quality_tier ∧ d.estimated_cost ≤ 1 / 10000) ∧
    mEconW.quality_tier ≠ QualityTier.premium := by
  constructor
  · apply route_required_quality_budget_fallback cfgW reqPremBudgetW QualityTier.premium
      (1 / 10000) [] QualityTier.economy [] mEconW rfl rfl
    · show firstWithinBudget (some (1 / 10000)) 100 100 [mPremW] = none
      simp only [firstWithinBudget]
      rw [if_pos]
      rw [estW_prem]
      norm_num
    · rfl
    · intro t ht
      cases ht
    · show firstWithinBudget (some (1 / 10000)) 100 100 [mEconW] = some mEconW
      simp only [firstWithinBudget]
      rw [if_neg]
      rw [estW_econ]
      norm_num
  · decide

/-- Claim C8: routing hello with a zero cost ceiling raises the
no-suitable-model error whenever every configured model has a strictly
positive estimate at the estimated token volume. -/
theorem route_text_zero_budget_raises (cfg : RouterConfig)
    (hpos : ∀ m ∈ cfg.models, 0 < m.estimate_cost 100 100) :
    route_text cfg ("hello") none (some 0) none =
      Except.error (RouteError.noSuitableModel (classify_complexity cfg ("hello"))
        (some 0)) := by
  have hnone : ∀ t, get_cheapest_model cfg t (some 0)
      ((estimatedTokens ("hello") : ℤ)) ((estimatedTokens ("hello") : ℤ)) = none := by
    intro t
    rw [get_cheapest_model_none_iff]
    intro m hm
    rw [fitsBudget_some_iff]
    rw [show ((estimatedTokens ("hello") : ℤ)) = 100 from rfl]
    exact not_le.mpr (hpos m (mem_tierModels_models hm))
  have hgc := hnone (targetTier cfg ⟨"hello", none, none, none, some 0, none⟩)
  have hwf : walkFallbacks cfg (some 0)
      ((estimatedTokens ("hello") : ℤ)) ((estimatedTokens ("hello") : ℤ))
      (cfg.fallback_chain (targetTier cfg ⟨"hello", none, none, none, some 0, none⟩))
      = none :=
    (walkFallbacks_none_iff cfg (some 0) _ _ _).mpr (fun t _ => hnone t)
  exact route_error_eq cfg ⟨"hello", none, none, none, some 0, none⟩ hgc hwf

/-- Claim C8 witness at a concrete configuration with positive prices. -/
theorem route_text_zero_budget_raises_witness :
    route_text cfgW ("hello") none (some 0) none =
      Except.error (RouteError.noSuitableModel (classify_complexity cfgW ("hello"))
        (some 0)) := by
  apply route_text_zero_budget_raises cfgW
  intro m hm
  rw [show cfgW.models = [mEconW, mStdW, mPremW] from rfl] at hm
  simp only [List.mem_cons, List.not_mem_nil, or_false] at hm
  rcases hm with rfl | rfl | rfl
  · rw [estW_econ]
    norm_num
  · rw [estW_std]
    norm_num
  · rw [estW_prem]
    norm_num

/-- Claim C3: on a nonempty tier with no ceiling, the cheapest-in-tier scan
returns a model of minimum input price, ties broken by configuration order
(it is the first configured model carrying the minimal price); with a
ceiling it returns none exactly when the tier is empty or every model's
estimate exceeds the ceiling. -/
theorem cheapest_in_tier_spec (cfg : RouterConfig) (t : QualityTier) (tin tout : ℤ) :
    ((tierModels cfg t ≠ []) →
      ∃ m, get_cheapest_model cfg t none tin tout = some m ∧
        m ∈ tierModels cfg t ∧
        (∀ m2 ∈ tierModels cfg t, m.cost_per_1k_input ≤ m2.cost_per_1k_input) ∧
        (tierModels cfg t).find?
          (fun m2 => decide (m2.cost_per_1k_input = m.cost_per_1k_input)) = some m) ∧
    (∀ c, get_cheapest_model cfg t (some c) tin tout = none ↔
      (tierModels cfg t = [] ∨ ∀ m ∈ tierModels cfg t, c < m.estimate_cost tin tout)) := by
  constructor
  · intro hne
    have hlen : sortedTierModels cfg t ≠ [] := by
      intro hnil
      apply hne
      have hl := (sortedTierModels_perm cfg t).length_eq
      rw [hnil] at hl
      exact List.eq_nil_of_length_eq_zero hl.symm
    obtain ⟨m, hm⟩ : ∃ m, (sortedTierModels cfg t).head? = some m := by
      cases hl : sortedTierModels cfg t with
      | nil => exact absurd hl hlen
      | cons a r => exact ⟨a, rfl⟩
    have hmem : m ∈ tierModels cfg t := by
      apply ((sortedTierModels_perm cfg t).mem_iff).mp
      cases hl : sortedTierModels cfg t with
      | nil => exact absurd hl hlen
      | cons a r =>
        rw [hl] at hm
        injection hm with hm
        rw [hm]
        exact List.mem_cons_self _ _
    refine ⟨m, ?_, hmem, sorted_head_min hm, ?_⟩
    · rw [get_cheapest_model_none_budget]
      exact hm
    · exact insertionSort_head?_find? (tierModels cfg t) m hm
  · intro c
    rw [get_cheapest_model_none_iff]
    constructor
    · intro h
      by_cases hemp : tierModels cfg t = []
      · exact Or.inl hemp
      · refine Or.inr (fun m hm => ?_)
        have hf := h m hm
        rw [fitsBudget_some_iff] at hf
        exact lt_of_not_le hf
    · intro h m hm
      rw [fitsBudget_some_iff]
      rcases h with h | h
      · rw [h] at hm
        cases hm
      · exact not_le_of_lt (h m hm)

/-- Claim C3 witness: a tier with a price tie, where the first configured
model of minimal price is returned. -/
theorem cheapest_in_tier_spec_witness :
    ∃ m, get_cheapest_model cfgTieW QualityTier.economy none 100 100 = some m ∧
      m ∈ tierModels cfgTieW QualityTier.economy ∧
      (∀ m2 ∈ tierModels cfgTieW QualityTier.economy,
        m.cost_per_1k_input ≤ m2.cost_per_1k_input) ∧
      (tierModels cfgTieW QualityTier.economy).find?
        (fun m2 => decide (m2.cost_per_1k_input = m.cost_per_1k_input)) = some m :=
  (cheapest_in_tier_spec cfgTieW QualityTier.economy 100 100).1 (by decide)

/-- Claim C4: classify_complexity is the inclusive threshold classification
of the heuristic score, and any all-whitespace text is simple regardless
of the score. -/
theorem classify_complexity_thresholds (cfg : RouterConfig) (text : String) :
    ((∀ c ∈ text.data, isPySpace c = true) →
      classify_complexity cfg text = Complexity.simple) ∧
    (¬ (∀ c ∈ text.data, isPySpace c = true) →
      classify_complexity cfg text =
        (if complexityScore cfg text.data ≤ 1 then Complexity.simple
          else if complexityScore cfg text.data ≤ 7 / 2 then Complexity.moderate
          else Complexity.complex)) := by
  constructor
  · intro h
    have hempty : (pyStrip (pyLower text.data)).isEmpty = true := by
      rw [List.isEmpty_iff, pyStrip_eq_nil_iff]
      exact (pyLower_all_space text.data).mpr h
    simp only [classify_complexity]
    rw [if_pos hempty]
  · intro h
    have hne : ¬ (pyStrip (pyLower text.data)).isEmpty = true := by
      rw [List.isEmpty_iff, pyStrip_eq_nil_iff]
      intro hall
      exact h ((pyLower_all_space text.data).mp hall)
    simp only [classify_complexity]
    rw [if_neg hne]

/-- Claim C4 witness: hello is classified through the score thresholds. -/
theorem classify_complexity_thresholds_witness :
    classify_complexity cfgW ("hello") =
      (if complexityScore cfgW ("hello").data ≤ 1 then Complexity.simple
        else if complexityScore cfgW ("hello").data ≤ 7 / 2 then Complexity.moderate
        else Complexity.complex) := by
  apply (classify_complexity_thresholds cfgW ("hello")).2
  intro h
  exact absurd (h ('h') (by decide)) (by decide)

/-- Claim C9: estimate_cost is the linear per-1k formula rounded to six
decimal places and is monotone in both token counts for nonnegative
prices. -/
theorem estimate_cost_formula_and_mono (m : ModelConfig) (tin tout tin2 tout2 : ℤ)
    (hin : 0 ≤ m.cost_per_1k_input) (hout : 0 ≤ m.cost_per_1k_output)
    (h1 : tin ≤ tin2) (h2 : tout ≤ tout2) :
    m.estimate_cost tin tout =
      pyRound ((tin : ℚ) / 1000 * m.cost_per_1k_input
        + (tout : ℚ) / 1000 * m.cost_per_1k_output) 6 ∧
    m.estimate_cost tin tout ≤ m.estimate_cost tin2 tout2 :=
  ⟨estimate_cost_def m tin tout, estimate_cost_mono m hin hout h1 h2⟩

/-- Claim C9 witness at a concrete model and token counts. -/
theorem estimate_cost_formula_and_mono_witness :
    mEconW.estimate_cost 100 100 =
      pyRound ((100 : ℚ) / 1000 * mEconW.cost_per_1k_input
        + (100 : ℚ) / 1000 * mEconW.cost_per_1k_output) 6 ∧
    mEconW.estimate_cost 100 100 ≤ mEconW.estimate_cost 200 150 :=
  estimate_cost_formula_and_mono mEconW 100 100 200 150
    (by norm_num [mEconW]) (by norm_num [mEconW]) (by norm_num) (by norm_num)

/-! Summation lemmas for the utilization rates. -/

/-- Termwise bound on the difference of two list sums. -/
theorem list_sum_abs_sub_le {α : Type} (l : List α) (f g : α → ℚ) (c : ℚ)
    (h : ∀ a ∈ l, |f a - g a| ≤ c) :
    |(l.map f).sum - (l.map g).sum| ≤ l.length * c := by
  induction l with
  | nil => simp
  | cons a t ih =>
    have h1 := h a (List.mem_cons_self a t)
    have h2 := ih (fun x hx => h x (List.mem_cons_of_mem a hx))
    simp only [List.map_cons, List.sum_cons, List.length_cons]
    push_cast
    have he : f a + (t.map f).sum - (g a + (t.map g).sum)
        = (f a - g a) + ((t.map f).sum - (t.map g).sum) := by
      ring
    rw [he]
    calc |(f a - g a) + ((t.map f).sum - (t.map g).sum)|
        ≤ |f a - g a| + |(t.map f).sum - (t.map g).sum| := abs_add _ _
      _ ≤ c + (t.length : ℚ) * c := add_le_add h1 h2
      _ = ((t.length : ℚ) + 1) * c := by ring

/-- Shares of a nonzero total sum to exactly 100 percent. -/
theorem sum_div_total {α : Type} (l : List α) (f : α → ℚ) (T : ℚ) (hT : T ≠ 0)
    (hsum : (l.map f).sum = T) :
    (l.map (fun a => f a / T * 100)).sum = 100 := by
  have hfun : (fun a => f a / T * 100) = fun a => f a * (100 / T) := by
    funext a
    ring
  rw [hfun, List.sum_map_mul_right, hsum]
  field_simp

/-- Claim C10: over summaries with at least one request, the rounded
request percentages sum to 100 up to half a rounding unit per model, and
likewise the cost percentages when the total cost is positive. -/
theorem utilization_rates_sum_100 (summaries : List CostSummary)
    (hreq : 0 < (summaries.map (fun s => s.request_count)).sum) :
    |((model_utilization_rates summaries).map (fun r => r.request_pct)).sum - 100|
        ≤ (summaries.length : ℚ) * (1 / 200) ∧
    (0 < (summaries.map (fun s => s.total_cost)).sum →
      |((model_utilization_rates summaries).map (fun r => r.cost_pct)).sum - 100|
        ≤ (summaries.length : ℚ) * (1 / 200)) := by
  constructor
  · have hmap : (model_utilization_rates summaries).map (fun r => r.request_pct)
        = summaries.map (fun s => pyRound ((s.request_count : ℚ)
            / (((summaries.map (fun s => s.request_count)).sum : ℕ) : ℚ) * 100) 2) := by
      simp only [model_utilization_rates, List.map_map, Function.comp_def, hreq, if_true]
    have hTne : (((summaries.map (fun s => s.request_count)).sum : ℕ) : ℚ) ≠ 0 := by
      exact_mod_cast Nat.pos_iff_ne_zero.mp hreq
    have hcast : (summaries.map (fun s => ((s.request_count : ℕ) : ℚ))).sum
        = (((summaries.map (fun s => s.request_count)).sum : ℕ) : ℚ) := by
      rw [Nat.cast_list_sum, List.map_map]
      rfl
    have hsum100 : (summaries.map (fun s => (s.request_count : ℚ)
        / (((summaries.map (fun s => s.request_count)).sum : ℕ) : ℚ) * 100)).sum = 100 :=
      sum_div_total summaries (fun s => ((s.request_count : ℕ) : ℚ)) _ hTne hcast
    have hb : ∀ s ∈ summaries,
        |pyRound ((s.request_count : ℚ)
            / (((summaries.map (fun s => s.request_count)).sum : ℕ) : ℚ) * 100) 2
          - (s.request_count : ℚ)
            / (((summaries.map (fun s => s.request_count)).sum : ℕ) : ℚ) * 100| ≤ 1 / 200 := by
      intro s _
      have hr := pyRound_abs_sub_le ((s.request_count : ℚ)
        / (((summaries.map (fun s => s.request_count)).sum : ℕ) : ℚ) * 100) 2
      have h200 : (1 : ℚ) / 2 / 10 ^ 2 = 1 / 200 := by norm_num
      rw [h200] at hr
      exact hr
    have hbound : |(summaries.map (fun s => pyRound ((s.request_count : ℚ)
            / (((summaries.map (fun s => s.request_count)).sum : ℕ) : ℚ) * 100) 2)).sum
          - (summaries.map (fun s => (s.request_count : ℚ)
            / (((summaries.map (fun s => s.request_count)).sum : ℕ) : ℚ) * 100)).sum|
        ≤ (summaries.length : ℚ) * (1 / 200) :=
      list_sum_abs_sub_le summaries _ _ (1 / 200) hb
    rw [hsum100] at hbound
    rw [hmap]
    exact hbound
  · intro hcost
    have hmap : (model_utilization_rates summaries).map (fun r => r.cost_pct)
        = summaries.map (fun s => pyRound (s.total_cost
            / (summaries.map (fun s => s.total_cost)).sum * 100) 2) := by
      simp only [model_utilization_rates, List.map_map, Function.comp_def, hcost, if_true]
    have hTne : (summaries.map (fun s => s.total_cost)).sum ≠ 0 := ne_of_gt hcost
    have hsum100 : (summaries.map (fun s => s.total_cost
        / (summaries.map (fun s => s.total_cost)).sum * 100)).sum = 100 :=
      sum_div_total summaries (fun s => s.total_cost) _ hTne rfl
    have hb : ∀ s ∈ summaries,
        |pyRound (s.total_cost / (summaries.map (fun s => s.total_cost)).sum * 100) 2
          - s.total_cost / (summaries.map (fun s => s.total_cost)).sum * 100| ≤ 1 / 200 := by
      intro s _
      have hr := pyRound_abs_sub_le
        (s.total_cost / (summaries.map (fun s => s.total_cost)).sum * 100) 2
      have h200 : (1 : ℚ) / 2 / 10 ^ 2 = 1 / 200 := by norm_num
      rw [h200] at hr
      exact hr
    have hbound : |(summaries.map (fun s => pyRound (s.total_cost
            / (summaries.map (fun s => s.total_cost)).sum * 100) 2)).sum
          - (summaries.map (fun s => s.total_cost
            / (summaries.map (fun s => s.total_cost)).sum * 100)).sum|
        ≤ (summaries.length : ℚ) * (1 / 200) :=
      list_sum_abs_sub_le summaries _ _ (1 / 200) hb
    rw [hsum100] at hbound
    rw [hmap]
    exact hbound

/-- Claim C10 witness at two concrete summaries. -/
theorem utilization_rates_sum_100_witness :
    |((model_utilization_rates summariesW).map (fun r => r.request_pct)).sum - 100|
        ≤ (summariesW.length : ℚ) * (1 / 200) ∧
    |((model_utilization_rates summariesW).map (fun r => r.cost_pct)).sum - 100|
        ≤ (summariesW.length : ℚ) * (1 / 200) := by
  have h := utilization_rates_sum_100 summariesW (by decide)
  exact ⟨h.1, h.2 (by norm_num [summariesW])⟩

end LLMCostOpt
